import Mathlib

/-!
A shallow embedding of `scheduler.py` (a poll-based periodic task scheduler):
the task-row data model, the validator (`validate_csv_structure`,
`validate_row_data`, `check_file_existence`), the scheduling decision
(`should_run_task`), the per-cycle row-processing loop of
`Scheduler.process_tasks` (including the in-memory last-run cache), and the
retrying CSV persistence of `Scheduler._update_csv`.

Modelling conventions:
* A CSV row (a Python dict) becomes a structure of `Option String` fields;
  `none` models a missing key.
* `datetime` timestamps are modelled as integers (seconds); the fixed
  `"%Y-%m-%d %H:%M:%S"` format of `strftime`/`strptime` is abstracted to a
  decimal rendering that keeps the operational properties used by the code:
  rendering is injective and nonempty, parsing fails on garbage and on the
  empty string, and `timedelta(minutes=f)` becomes `60 * f` seconds.
* A Python exception escaping a function is modelled by `Option`/an `aborted`
  flag (only `ValueError` from `strptime` is caught inside
  `should_run_task`, exactly as in the source).
* The filesystem is an oracle `String → Bool` for existence checks and an
  explicit record (destination file, optional temp file) for persistence;
  `os.replace` outcomes come from an oracle `Nat → Bool` indexed by attempt.
* `time.sleep` durations are collected in a list of rationals
  (`1 + attempt * 0.5` is exact in ℚ).
-/

/-- One row of the task table, as the Python `csv.DictReader` dict:
each field is `none` when the key is missing. -/
structure Row where
  Enabled : Option String
  ProcessName : Option String
  ExecutablePath : Option String
  Frequency : Option String
  Arguments : Option String
  LastRunTime : Option String
deriving DecidableEq, Repr

/-- The in-memory last-run cache `Scheduler.last_run_cache`
(`{ProcessName: LastRunTime_str}`); the key is the value of
`row.get('ProcessName')`, hence an `Option String`. -/
abbrev RunCache : Type := Option String → Option String

/-- Python whitespace stripping (`str.strip`) on a character list. -/
def pyStrip (cs : List Char) : List Char :=
  ((cs.dropWhile Char.isWhitespace).reverse.dropWhile Char.isWhitespace).reverse

/-- Value of a nonempty decimal digit string. -/
def digitsVal (cs : List Char) : Nat :=
  cs.foldl (fun a c => a * 10 + (c.toNat - 48)) 0

/-- Parse a nonempty all-digit character list. -/
def parseDigits : List Char → Option Nat
  | [] => none
  | cs => if cs.all Char.isDigit then some (digitsVal cs) else none

/-- Python `int(str)`: optional surrounding whitespace, optional sign,
then decimal digits; anything else raises `ValueError`, modelled as `none`. -/
def pyInt (s : String) : Option Int :=
  match pyStrip s.data with
  | '-' :: cs => (parseDigits cs).map fun n => -(n : Int)
  | '+' :: cs => (parseDigits cs).map fun n => (n : Int)
  | cs => (parseDigits cs).map fun n => (n : Int)

/-- Fuelled decimal digit rendering (least significant digit pushed last). -/
def natDigitsAux : Nat → Nat → List Char → List Char
  | 0, _, acc => acc
  | fuel + 1, n, acc =>
    let d := Char.ofNat (48 + n % 10)
    if n < 10 then d :: acc else natDigitsAux fuel (n / 10) (d :: acc)

/-- Decimal rendering of a natural number. -/
def natRepr (n : Nat) : List Char := natDigitsAux (n + 1) n []

/-- Model of `now.strftime("%Y-%m-%d %H:%M:%S")`: an injective, nonempty
textual rendering of the integer timestamp. -/
def strftime (t : Int) : String :=
  match t with
  | .ofNat n => ⟨natRepr n⟩
  | .negSucc n => ⟨'-' :: natRepr (n + 1)⟩

/-- Model of `datetime.strptime(s, "%Y-%m-%d %H:%M:%S")`: strict parsing of
the timestamp rendering; any malformed string raises `ValueError`,
modelled as `none`. -/
def strptime (s : String) : Option Int :=
  match s.data with
  | '-' :: cs => (parseDigits cs).map fun n => -(n : Int)
  | cs => (parseDigits cs).map fun n => (n : Int)

/-- Python truthiness test `row.get('Enabled', '').lower() in ('true', '1', 'yes')`. -/
def isEnabled (e : Option String) : Bool :=
  let l := (e.getD "").data.map Char.toLower
  l == "true".data || l == "1".data || l == "yes".data

/-- The scheduler's base directory (`BASE_DIR`), an opaque path string. -/
def BASE_DIR : String := "/base"

/-- `RETRY_COOUT = 5` (sic), the replace retry limit. -/
def RETRY_COOUT : Nat := 5

/-- `TaskValidatorBase.REQUIRED_HEADERS`. -/
def REQUIRED_HEADERS : List String := ["Enabled", "ProcessName", "ExecutablePath", "Frequency"]

/-- `TaskValidatorBase.get_absolute_path`: resolve a relative path against
`BASE_DIR` (absoluteness modelled as a leading path separator). -/
def get_absolute_path (exec_path : String) : String :=
  if exec_path.data.head? = some '/' then exec_path
  else BASE_DIR ++ "/" ++ exec_path

/-- `TaskValidatorBase.validate_csv_structure`: the required headers must be
a subset of the declared fieldnames. -/
def validate_csv_structure (fieldnames : List String) : Bool × String :=
  if REQUIRED_HEADERS.all (fun h => fieldnames.contains h) then (true, "")
  else (false, "Missing headers: " ++
    String.intercalate ", " (REQUIRED_HEADERS.filter (fun h => !fieldnames.contains h)))

/-- `TaskValidatorBase.validate_row_data`: fails when `ExecutablePath` is
missing/empty or the `Frequency` value does not parse as an integer
(`int(row.get('Frequency', 0))`: a missing key defaults to `0`, which parses). -/
def validate_row_data (row : Row) : Bool × String :=
  let name := row.ProcessName.getD "Unknown"
  if row.ExecutablePath.getD "" = "" then
    (false, "[" ++ name ++ "] Missing ExecutablePath.")
  else
    match row.Frequency with
    | none => (true, "")
    | some f =>
      match pyInt f with
      | none => (false, "[" ++ name ++ "] Frequency is not a valid number.")
      | some _ => (true, "")

/-- `TaskValidatorBase.check_file_existence`, with the filesystem as an
oracle `fe` from absolute path to existence. -/
def check_file_existence (fe : String → Bool) (exec_path : String) : Bool × String :=
  let f := get_absolute_path exec_path
  if fe f = false then (false, "File not found: " ++ f) else (true, f)

/-- `TaskValidatorBase.should_run_task`. `none` models an uncaught exception:
`int(row['Frequency'])` raises `KeyError` on a missing key and `ValueError`
on a non-integer value (only `strptime`'s `ValueError` is caught, by the
`try` around the date arithmetic). -/
def should_run_task (row : Row) (current_time : Int) : Option (Bool × String) :=
  if isEnabled row.Enabled = false then some (false, "Disabled")
  else
    match row.Frequency with
    | none => none
    | some fs =>
      match pyInt fs with
      | none => none
      | some freq_min =>
        let last_run_str := row.LastRunTime.getD ""
        if last_run_str = "" then some (true, "First Run")
        else
          match strptime last_run_str with
          | none => some (true, "Invalid Date Reset")
          | some last_run =>
            let next_run := last_run + 60 * freq_min
            if next_run ≤ current_time then some (true, "Scheduled")
            else some (false, "Next run: " ++ strftime next_run)

/-- A submission to the execution pool (`self.executor.submit(TaskRunner.execute,
row, full_path)`): the position of the row in the table, the `ProcessName`
used as cache key, and the resolved path handed to the runner. -/
structure Submission where
  idx : Nat
  name : Option String
  path : String
deriving DecidableEq, Repr

/-- Shift a submission's row index by one (used when prepending a row). -/
def bumpIdx (s : Submission) : Submission :=
  { s with idx := s.idx + 1 }

/-- Point update of the run cache (`self.last_run_cache[p_name] = new_last_run`). -/
def cacheInsert (cache : RunCache) (k : Option String) (v : String) : RunCache :=
  fun k1 => if k1 = k then some v else cache k1

/-- The cache fallback of `Scheduler.process_tasks` (lines 275-280): if the
`ProcessName` has a cache entry and the cached string is truthy, the row's
`LastRunTime` is overwritten with it before anything else looks at the row. -/
def overrideFromCache (cache : RunCache) (row : Row) : Row :=
  match cache row.ProcessName with
  | none => row
  | some c => if c = "" then row else { row with LastRunTime := some c }

/-- What the per-row body of the `Scheduler.process_tasks` loop does with one
row: keep it as-is (invalid, disabled, missing file, or not due), trigger it
(submit and stamp), or raise out of the loop (`should_run_task` escaping
exception, caught only by the cycle-level `except`). -/
inductive RowStep where
  | keep : Row → RowStep
  | trigger : Row → Option String → String → RowStep
  | abort : RowStep

/-- One iteration of the row loop of `Scheduler.process_tasks`: cache
override, row validation, enabled check, file-existence check, then the
scheduling decision. In the `trigger` case the carried row is the overridden
row before stamping, together with the cache key and the resolved path. -/
def rowStep (fe : String → Bool) (now : Int) (cache : RunCache) (row0 : Row) : RowStep :=
  let row := overrideFromCache cache row0
  if (validate_row_data row).1 = false then .keep row
  else if isEnabled row.Enabled = false then .keep row
  else if (check_file_existence fe (row.ExecutablePath.getD "")).1 = false then .keep row
  else
    match should_run_task row now with
    | none => .abort
    | some (true, _) =>
      .trigger row row.ProcessName (check_file_existence fe (row.ExecutablePath.getD "")).2
    | some (false, _) => .keep row

/-- Result of the row loop of one cycle: the accumulated `new_rows`, the
run cache after the loop, the submissions made to the pool, the `updated`
flag, and whether an exception aborted the loop (in which case `new_rows`
is discarded by the caller but cache updates and submissions already made
persist, as in Python). -/
structure CycleRes where
  rows : List Row
  cache : RunCache
  subs : List Submission
  updated : Bool
  aborted : Bool

/-- The row loop of `Scheduler.process_tasks` (lines 272-313). On a trigger,
the submission happens and then `LastRunTime` is stamped with
`now.strftime(...)` and the cache is updated, before moving to the next row;
execution outcomes play no part (the submit is fire-and-forget). -/
def processRows (fe : String → Bool) (now : Int) : List Row → RunCache → CycleRes
  | [], cache => ⟨[], cache, [], false, false⟩
  | row :: rest, cache =>
    match rowStep fe now cache row with
    | .keep r =>
      let r2 := processRows fe now rest cache
      ⟨r :: r2.rows, r2.cache, r2.subs.map bumpIdx, r2.updated, r2.aborted⟩
    | .trigger r n p =>
      let stamped := { r with LastRunTime := some (strftime now) }
      let r2 := processRows fe now rest (cacheInsert cache n (strftime now))
      ⟨stamped :: r2.rows, r2.cache, ⟨0, n, p⟩ :: r2.subs.map bumpIdx, true, r2.aborted⟩
    | .abort => ⟨[], cache, [], false, true⟩

/-- The serialized content of the schedule file: fieldnames and rows. -/
abbrev TableFile : Type := List String × List Row

/-- The slice of the filesystem touched by `Scheduler._update_csv`: the
destination `process_schedule.csv` and the optional `.tmp` file. -/
structure Fs where
  dest : TableFile
  temp : Option TableFile
deriving DecidableEq

/-- The `for attempt in range(RETRY_COOUT)` loop around `os.replace` in
`Scheduler._update_csv`: `ok a` tells whether the replace succeeds at
attempt `a`; on success the temp file atomically becomes the destination; on
failure the loop sleeps `1 + attempt * 0.5` seconds and retries, except at
the last attempt where it re-raises. Returns the filesystem, the sleeps
performed, and the success flag. -/
def replaceRetry (ok : Nat → Bool) (fs : Fs) : List Nat → Fs × List ℚ × Bool
  | [] => (fs, [], false)
  | attempt :: rest =>
    if ok attempt then
      ({ dest := fs.temp.getD fs.dest, temp := none }, [], true)
    else if attempt < RETRY_COOUT - 1 then
      let w : ℚ := 1 + (attempt : ℚ) * (1 / 2)
      let r := replaceRetry ok fs rest
      (r.1, w :: r.2.1, r.2.2)
    else (fs, [], false)

/-- `Scheduler._update_csv`: write the temp file, run the replace-retry
loop, and on total failure hit the `except` block, which logs the failure
and removes the orphaned temp file. Returns the filesystem, the sleeps, and
whether the update succeeded (`false` models the logged failure). -/
def update_csv (ok : Nat → Bool) (file : TableFile) (fs : Fs) : Fs × List ℚ × Bool :=
  let fs1 : Fs := { fs with temp := some file }
  let r := replaceRetry ok fs1 (List.range RETRY_COOUT)
  if r.2.2 then (r.1, r.2.1, true)
  else ({ r.1 with temp := none }, r.2.1, false)

/-- `Scheduler.process_tasks`, one full cycle: structural validation of the
headers, `LastRunTime` column appended if absent, the row loop, and — only
when something was updated and no exception aborted the loop — the CSV
commit. Returns the filesystem, the run cache, and the sleeps performed. -/
def process_tasks (fe : String → Bool) (ok : Nat → Bool) (now : Int)
    (fs : Fs) (cache : RunCache) : Fs × RunCache × List ℚ :=
  let fieldnames := fs.dest.1
  if (validate_csv_structure fieldnames).1 = false then (fs, cache, [])
  else
    let fieldnames2 :=
      if fieldnames.contains "LastRunTime" then fieldnames
      else fieldnames ++ ["LastRunTime"]
    let res := processRows fe now fs.dest.2 cache
    if res.aborted then (fs, res.cache, [])
    else if res.updated then
      let u := update_csv ok (fieldnames2, res.rows) fs
      (u.1, res.cache, u.2.1)
    else (fs, res.cache, [])

/-- Parameters of one scheduler cycle: the file-existence oracle, the
replace-success oracle, and the cycle's `datetime.now()`. -/
abbrev CycleIn : Type := (String → Bool) × (Nat → Bool) × Int

/-- Iterated cycles of `Scheduler.run_loop`: the filesystem and the run
cache thread through; everything else is per-cycle. -/
def runCycles : List CycleIn → Fs × RunCache → Fs × RunCache
  | [], st => st
  | p :: ps, st =>
    let r := process_tasks p.1 p.2.1 p.2.2 st.1 st.2
    runCycles ps (r.1, r.2.1)

/-! ## Properties of the scheduling decision and row validation -/

/-- C1: for an enabled row whose `LastRunTime` parses to `T` and whose
`Frequency` parses to the integer `F`, `should_run_task` is due exactly when
`now ≥ T + F` minutes (`60 * F` seconds), with the boundary included. -/
theorem should_run_task_boundary (row : Row) (now : Int) (f : String) (F : Int)
    (ls : String) (T : Int)
    (hE : isEnabled row.Enabled = true)
    (hf : row.Frequency = some f) (hp : pyInt f = some F)
    (hl : row.LastRunTime = some ls) (hne : ls ≠ "")
    (ht : strptime ls = some T) :
    (should_run_task row now).map Prod.fst = some (decide (T + 60 * F ≤ now)) := by
  simp only [should_run_task, hE, hf, hp, hl, ht, Option.getD_some, Bool.true_eq_false,
    if_false, if_neg hne]
  split_ifs with h
  · simp [h]
  · simp [h]

/-- Witness for C1 at the inclusive boundary: `T = 100`, `F = 2` minutes,
`now = 220 = T + 60 * F`. -/
theorem should_run_task_boundary_witness :
    (should_run_task ⟨some "true", some "X", some "/x.sh", some "2", none, some "100"⟩ 220).map
      Prod.fst = some (decide ((100 : Int) + 60 * 2 ≤ 220)) :=
  should_run_task_boundary _ 220 "2" 2 "100" 100 (by decide) rfl (by decide) rfl
    (by decide) (by decide)

/-- C9 (counterexample): the fail-open policy does not hold for *every*
enabled row: on an enabled row with the non-integer frequency `"oops"` and
an absent `LastRunTime`, `int(row['Frequency'])` raises before the
`LastRunTime` handling is reached, so `should_run_task` returns no pair at
all instead of `(true, "First Run")`. -/
theorem fail_open_raises_counterexample :
    isEnabled (⟨some "true", some "W", some "/w.sh", some "oops", none, none⟩ : Row).Enabled =
      true ∧
    (⟨some "true", some "W", some "/w.sh", some "oops", none, none⟩ : Row).LastRunTime = none ∧
    should_run_task ⟨some "true", some "W", some "/w.sh", some "oops", none, none⟩ 0 = none := by
  decide

/-- C9 (amended): the fail-open policy of `should_run_task` for an enabled
row whose frequency field is present and parses as an integer (the only
enabled rows on which it returns at all): an absent `LastRunTime` (a missing
key or the empty cell a CSV uses to express absence) yields
`(true, "First Run")`, and a present, nonempty but unparsable `LastRunTime`
yields `(true, "Invalid Date Reset")`. -/
theorem should_run_task_fail_open (row : Row) (now : Int) (f : String) (F : Int)
    (hE : isEnabled row.Enabled = true)
    (hf : row.Frequency = some f) (hp : pyInt f = some F) :
    (row.LastRunTime.getD "" = "" → should_run_task row now = some (true, "First Run")) ∧
    (∀ s, row.LastRunTime = some s → s ≠ "" → strptime s = none →
      should_run_task row now = some (true, "Invalid Date Reset")) := by
  constructor
  · intro h
    simp [should_run_task, hE, hf, hp, h]
  · intro s hs hne hbad
    simp [should_run_task, hE, hf, hp, hs, hne, hbad]

/-- Witness for C9: a corrupted timestamp `"June 3rd"` on an enabled row is
treated as never run. -/
theorem should_run_task_fail_open_witness :
    ((⟨some "true", some "X", some "/x.sh", some "5", none, some "June 3rd"⟩ : Row).LastRunTime.getD ""
        = "" →
      should_run_task ⟨some "true", some "X", some "/x.sh", some "5", none, some "June 3rd"⟩ 0 =
        some (true, "First Run")) ∧
    (∀ s,
      (⟨some "true", some "X", some "/x.sh", some "5", none, some "June 3rd"⟩ : Row).LastRunTime =
          some s →
        s ≠ "" → strptime s = none →
        should_run_task ⟨some "true", some "X", some "/x.sh", some "5", none, some "June 3rd"⟩ 0 =
          some (true, "Invalid Date Reset")) :=
  should_run_task_fail_open _ 0 "5" 5 (by decide) rfl (by decide)

/-- C6 (counterexample): `should_run_task` is not total — on an enabled row
whose `Frequency` is the non-integer string `"abc"`, `int(row['Frequency'])`
raises `ValueError` (modelled by `none`): no `(bool, reason)` pair is
returned. -/
theorem should_run_task_raises_on_bad_frequency :
    should_run_task ⟨some "true", some "X", some "/x.sh", some "abc", none, none⟩ 0 = none := by
  decide

/-- C6 (amended): `should_run_task` does return a `(bool, reason)` pair for
every current time whenever the row is disabled or its `Frequency` field is
present and parses as an integer — the only rows the scheduling pipeline
ever hands it, since `validate_row_data` runs first. -/
theorem should_run_task_total_on_validated (row : Row) (now : Int)
    (h : isEnabled row.Enabled = false ∨ ∃ n, row.Frequency.bind pyInt = some n) :
    (should_run_task row now).isSome = true := by
  rcases h with h | ⟨n, h⟩
  · simp [should_run_task, h]
  · cases hf : row.Frequency with
    | none => rw [hf] at h; simp at h
    | some f =>
      rw [hf, Option.some_bind] at h
      by_cases hE : isEnabled row.Enabled = false
      · simp [should_run_task, hE]
      · have hE2 : isEnabled row.Enabled = true := by
          cases hb : isEnabled row.Enabled
          · exact absurd hb hE
          · rfl
        simp only [should_run_task, hE2, Bool.true_eq_false, if_false, hf, h]
        split_ifs with h1
        · simp
        · cases hparse : strptime (row.LastRunTime.getD "")
          · simp [hparse]
          · simp only [hparse]
            split_ifs <;> simp

/-- Witness for C6 (amended): a disabled row with garbage frequency still
gets its `(false, "Disabled")` answer. -/
theorem should_run_task_total_on_validated_witness :
    (should_run_task ⟨some "no", some "X", some "/x.sh", some "abc", none, none⟩ 7).isSome = true :=
  should_run_task_total_on_validated _ 7 (Or.inl (by decide))

/-- C7: `validate_row_data` accepts a row exactly when its executable path
is non-empty (a missing key and an empty cell are both falsy) and its
`Frequency` value, when the field is present, parses as an integer (a
missing field falls back to the default `0`, which parses). -/
theorem validate_row_data_iff (row : Row) :
    (validate_row_data row).1 = true ↔
      (row.ExecutablePath.getD "" ≠ "" ∧
        ∀ f, row.Frequency = some f → (pyInt f).isSome = true) := by
  by_cases hx : row.ExecutablePath.getD "" = ""
  · simp [validate_row_data, hx]
  · cases hf : row.Frequency with
    | none => simp [validate_row_data, hx, hf]
    | some f =>
      cases hp : pyInt f <;> simp [validate_row_data, hx, hf, hp]

/-- C8 (counterexample): `"-5"` parses as the negative integer `-5`, yet the
row passes validation — the `frequencyMinutes ≥ 0` constraint of the data
model is not enforced. -/
theorem negative_frequency_accepted :
    pyInt "-5" = some (-5) ∧ (-5 : Int) < 0 ∧
      (validate_row_data ⟨some "true", some "X", some "x.sh", some "-5", none, none⟩).1 = true := by
  decide

/-- C8 (amended): row validation is sign-blind — any row with a non-empty
executable path whose frequency parses as an integer, negative included, is
marked valid. -/
theorem validate_row_data_sign_blind (row : Row) (f : String) (n : Int)
    (hf : row.Frequency = some f) (hp : pyInt f = some n)
    (hx : row.ExecutablePath.getD "" ≠ "") :
    (validate_row_data row).1 = true := by
  simp [validate_row_data, hf, hp, hx]

/-- Witness for C8 (amended) at frequency `-5`. -/
theorem validate_row_data_sign_blind_witness :
    (validate_row_data ⟨some "true", some "Y", some "y.sh", some "-5", none, none⟩).1 = true :=
  validate_row_data_sign_blind _ "-5" (-5) rfl (by decide) (by decide)

/-! ## Persistence: the retrying atomic replace -/

/-- C3: when the atomic replace fails at all `RETRY_COOUT = 5` attempts,
`_update_csv` sleeps `1 + attempt * 0.5` seconds between consecutive
attempts (`1, 1.5, 2, 2.5`), removes the orphaned temporary file, surfaces
the failure (the `false` flag models the logged error), and leaves the
destination file exactly as it was before the cycle. -/
theorem update_csv_exhausted_retries (ok : Nat → Bool) (file : TableFile) (fs : Fs)
    (h : ∀ a, a < RETRY_COOUT → ok a = false) :
    update_csv ok file fs = (⟨fs.dest, none⟩, [1, 3 / 2, 2, 5 / 2], false) := by
  have h0 := h 0 (by decide)
  have h1 := h 1 (by decide)
  have h2 := h 2 (by decide)
  have h3 := h 3 (by decide)
  have h4 := h 4 (by decide)
  have hr : List.range RETRY_COOUT = [0, 1, 2, 3, 4] := rfl
  norm_num [update_csv, hr, replaceRetry, h0, h1, h2, h3, h4, RETRY_COOUT]

/-- Witness for C3: a permanently locked destination. -/
theorem update_csv_exhausted_retries_witness :
    update_csv (fun _ => false) (["h"], []) ⟨(["E"], []), none⟩ =
      (⟨(["E"], []), none⟩, [1, 3 / 2, 2, 5 / 2], false) :=
  update_csv_exhausted_retries (fun _ => false) (["h"], []) ⟨(["E"], []), none⟩
    (fun _ _ => rfl)

/-! ## The per-cycle row loop -/

/-- Unfolding of `processRows` when the head row is kept as-is. -/
theorem processRows_cons_keep (fe : String → Bool) (now : Int) (cache : RunCache)
    (row : Row) (rest : List Row) (r : Row) (h : rowStep fe now cache row = .keep r) :
    processRows fe now (row :: rest) cache =
      ⟨r :: (processRows fe now rest cache).rows, (processRows fe now rest cache).cache,
        (processRows fe now rest cache).subs.map bumpIdx,
        (processRows fe now rest cache).updated, (processRows fe now rest cache).aborted⟩ := by
  simp only [processRows, h]

/-- Unfolding of `processRows` when the head row triggers. -/
theorem processRows_cons_trigger (fe : String → Bool) (now : Int) (cache : RunCache)
    (row : Row) (rest : List Row) (r : Row) (n : Option String) (p : String)
    (h : rowStep fe now cache row = .trigger r n p) :
    processRows fe now (row :: rest) cache =
      ⟨{ r with LastRunTime := some (strftime now) } ::
          (processRows fe now rest (cacheInsert cache n (strftime now))).rows,
        (processRows fe now rest (cacheInsert cache n (strftime now))).cache,
        ⟨0, n, p⟩ ::
          (processRows fe now rest (cacheInsert cache n (strftime now))).subs.map bumpIdx,
        true, (processRows fe now rest (cacheInsert cache n (strftime now))).aborted⟩ := by
  simp only [processRows, h]

/-- Unfolding of `processRows` when the head row raises. -/
theorem processRows_cons_abort (fe : String → Bool) (now : Int) (cache : RunCache)
    (row : Row) (rest : List Row) (h : rowStep fe now cache row = .abort) :
    processRows fe now (row :: rest) cache = ⟨[], cache, [], false, true⟩ := by
  simp only [processRows, h]

/-- Every submission of a non-aborted cycle points at an output row whose
`LastRunTime` was stamped with the cycle's `now`. -/
theorem processRows_subs_stamped (fe : String → Bool) (now : Int) :
    ∀ (rows : List Row) (cache : RunCache),
      (processRows fe now rows cache).aborted = false →
      ∀ s ∈ (processRows fe now rows cache).subs,
        ∃ r, (processRows fe now rows cache).rows.get? s.idx = some r ∧
          r.LastRunTime = some (strftime now)
  | [], cache => by simp [processRows]
  | row :: rest, cache => by
    intro hab s hs
    cases hstep : rowStep fe now cache row with
    | keep r =>
      rw [processRows_cons_keep fe now cache row rest r hstep] at hab hs ⊢
      simp only at hab hs ⊢
      rcases List.mem_map.mp hs with ⟨s0, hs0, rfl⟩
      obtain ⟨r1, hr1, hstamp⟩ := processRows_subs_stamped fe now rest cache hab s0 hs0
      exact ⟨r1, by simpa [bumpIdx] using hr1, hstamp⟩
    | trigger r n p =>
      rw [processRows_cons_trigger fe now cache row rest r n p hstep] at hab hs ⊢
      simp only at hab hs ⊢
      rcases List.mem_cons.mp hs with rfl | hs
      · exact ⟨{ r with LastRunTime := some (strftime now) }, rfl, rfl⟩
      · rcases List.mem_map.mp hs with ⟨s0, hs0, rfl⟩
        obtain ⟨r1, hr1, hstamp⟩ :=
          processRows_subs_stamped fe now rest (cacheInsert cache n (strftime now)) hab s0 hs0
        exact ⟨r1, by simpa [bumpIdx] using hr1, hstamp⟩
    | abort =>
      rw [processRows_cons_abort fe now cache row rest hstep] at hab
      simp at hab

/-- The submission indices of a cycle are pairwise distinct: each table row
is submitted at most once per cycle. -/
theorem processRows_subs_idx_nodup (fe : String → Bool) (now : Int) :
    ∀ (rows : List Row) (cache : RunCache),
      ((processRows fe now rows cache).subs.map Submission.idx).Nodup
  | [], cache => by simp [processRows]
  | row :: rest, cache => by
    have hmap : ∀ l : List Submission,
        (l.map bumpIdx).map Submission.idx = (l.map Submission.idx).map (· + 1) := by
      intro l
      simp [List.map_map]
      intro a ha
      rfl
    cases hstep : rowStep fe now cache row with
    | keep r =>
      rw [processRows_cons_keep fe now cache row rest r hstep]
      simp only [hmap]
      exact (processRows_subs_idx_nodup fe now rest cache).map (fun a b => by omega)
    | trigger r n p =>
      rw [processRows_cons_trigger fe now cache row rest r n p hstep]
      simp only [List.map_cons, hmap]
      refine List.Nodup.cons ?_ ?_
      · intro hmem
        rcases List.mem_map.mp hmem with ⟨a, _, ha⟩
        omega
      · exact (processRows_subs_idx_nodup fe now rest
          (cacheInsert cache n (strftime now))).map (fun a b => by omega)
    | abort =>
      rw [processRows_cons_abort fe now cache row rest hstep]
      simp

/-- C2: in a cycle that completes its row loop, every row submitted to the
execution pool has its `LastRunTime` set to the cycle's `now` in the output
table at the moment of submission, and the submission indices are pairwise
distinct, so each table row is triggered at most once per cycle. The
embedding takes no execution outcome anywhere: the stamp is fixed before and
regardless of how (or whether) the fire-and-forget execution finishes. -/
theorem lastRunTime_stamped_at_submission (fe : String → Bool) (now : Int)
    (rows : List Row) (cache : RunCache) (s : Submission)
    (hab : (processRows fe now rows cache).aborted = false)
    (hs : s ∈ (processRows fe now rows cache).subs) :
    (∃ r, (processRows fe now rows cache).rows.get? s.idx = some r ∧
      r.LastRunTime = some (strftime now)) ∧
    ((processRows fe now rows cache).subs.map Submission.idx).Nodup :=
  ⟨processRows_subs_stamped fe now rows cache hab s hs,
    processRows_subs_idx_nodup fe now rows cache⟩

/-- Witness for C2: one enabled, never-run task triggers and its output row
carries the cycle's timestamp. -/
theorem lastRunTime_stamped_at_submission_witness :
    (∃ r, (processRows (fun _ => true) 0
        [⟨some "true", some "X", some "/a.sh", some "10", none, none⟩]
        (fun _ => none)).rows.get? (Submission.mk 0 (some "X") "/a.sh").idx = some r ∧
      r.LastRunTime = some (strftime 0)) ∧
    ((processRows (fun _ => true) 0
        [⟨some "true", some "X", some "/a.sh", some "10", none, none⟩]
        (fun _ => none)).subs.map Submission.idx).Nodup :=
  lastRunTime_stamped_at_submission (fun _ => true) 0
    [⟨some "true", some "X", some "/a.sh", some "10", none, none⟩] (fun _ => none)
    ⟨0, some "X", "/a.sh"⟩ (by decide) (by decide)

/-- The fuelled digit renderer never shrinks its accumulator. -/
theorem natDigitsAux_length : ∀ (fuel n : Nat) (acc : List Char),
    acc.length ≤ (natDigitsAux fuel n acc).length
  | 0, _, _ => le_rfl
  | fuel + 1, n, acc => by
    simp only [natDigitsAux]
    split_ifs
    · simp
    · exact le_trans (by simp) (natDigitsAux_length fuel (n / 10) _)

/-- A rendered natural number has at least one digit. -/
theorem natRepr_ne_nil (n : Nat) : natRepr n ≠ [] := by
  unfold natRepr
  simp only [natDigitsAux]
  split_ifs
  · simp
  · intro hcon
    have h2 := natDigitsAux_length n (n / 10) [Char.ofNat (48 + n % 10)]
    rw [hcon] at h2
    simp at h2

/-- The timestamp the scheduler stamps and caches is always truthy: the
rendering of `now` is never the empty string. -/
theorem strftime_ne_empty (t : Int) : strftime t ≠ "" := by
  cases t with
  | ofNat n =>
    intro h
    have h2 := congrArg String.data h
    simp only [strftime] at h2
    exact natRepr_ne_nil n h2
  | negSucc n =>
    intro h
    have h2 := congrArg String.data h
    simp [strftime] at h2

/-- A run-cache entry already holding the cycle's timestamp keeps it through
the rest of the row loop (further triggers write the same timestamp). -/
theorem processRows_cache_fmt (fe : String → Bool) (now : Int) :
    ∀ (rows : List Row) (cache : RunCache) (k : Option String),
      cache k = some (strftime now) →
      (processRows fe now rows cache).cache k = some (strftime now)
  | [], cache, k => by simp [processRows]
  | row :: rest, cache, k => by
    intro hk
    cases hstep : rowStep fe now cache row with
    | keep r =>
      rw [processRows_cons_keep fe now cache row rest r hstep]
      exact processRows_cache_fmt fe now rest cache k hk
    | trigger r n p =>
      rw [processRows_cons_trigger fe now cache row rest r n p hstep]
      refine processRows_cache_fmt fe now rest (cacheInsert cache n (strftime now)) k ?_
      unfold cacheInsert
      split_ifs <;> simp [hk]
    | abort =>
      rw [processRows_cons_abort fe now cache row rest hstep]
      exact hk

/-- After the row loop, the cache maps the name of every task submitted this
cycle to the cycle's timestamp. -/
theorem processRows_subs_cached (fe : String → Bool) (now : Int) :
    ∀ (rows : List Row) (cache : RunCache),
      ∀ s ∈ (processRows fe now rows cache).subs,
        (processRows fe now rows cache).cache s.name = some (strftime now)
  | [], cache => by simp [processRows]
  | row :: rest, cache => by
    intro s hs
    cases hstep : rowStep fe now cache row with
    | keep r =>
      rw [processRows_cons_keep fe now cache row rest r hstep] at hs ⊢
      simp only at hs ⊢
      rcases List.mem_map.mp hs with ⟨s0, hs0, rfl⟩
      exact processRows_subs_cached fe now rest cache s0 hs0
    | trigger r n p =>
      rw [processRows_cons_trigger fe now cache row rest r n p hstep] at hs ⊢
      simp only at hs ⊢
      rcases List.mem_cons.mp hs with rfl | hs
      · refine processRows_cache_fmt fe now rest (cacheInsert cache n (strftime now)) n ?_
        simp [cacheInsert]
      · rcases List.mem_map.mp hs with ⟨s0, hs0, rfl⟩
        exact processRows_subs_cached fe now rest (cacheInsert cache n (strftime now)) s0 hs0
    | abort =>
      rw [processRows_cons_abort fe now cache row rest hstep] at hs
      simp at hs

/-- The run cache a cycle ends with does not depend on how the commit goes:
it is fully written before `_update_csv` is attempted. -/
theorem process_tasks_cache_indep_commit (fe : String → Bool) (ok1 ok2 : Nat → Bool)
    (now : Int) (fs : Fs) (cache : RunCache) :
    (process_tasks fe ok1 now fs cache).2.1 = (process_tasks fe ok2 now fs cache).2.1 := by
  unfold process_tasks
  dsimp only
  split_ifs <;> rfl

/-- C4: (a) after the row loop, every submitted task's name maps in the run
cache to the cycle's timestamp; (b) the cache a cycle produces is the same
whether the commit succeeds or fails — it is updated before the commit is
attempted; (c) on a load, a row whose `ProcessName` has a (truthy) cache
entry is processed exactly as if its freshly loaded `lastRunTime` were the
cached value, before any scheduling decision; (d) the cached timestamp is
always truthy, so the override in (c) does fire on later loads. -/
theorem runcache_updated_before_commit (fe : String → Bool) (now : Int)
    (rows : List Row) (cache : RunCache) (fs : Fs) (ok1 ok2 : Nat → Bool)
    (s : Submission) (hs : s ∈ (processRows fe now rows cache).subs)
    (row : Row) (rest : List Row) (c : String)
    (hc : cache row.ProcessName = some c) (hne : c ≠ "") :
    (processRows fe now rows cache).cache s.name = some (strftime now) ∧
    (process_tasks fe ok1 now fs cache).2.1 = (process_tasks fe ok2 now fs cache).2.1 ∧
    processRows fe now (row :: rest) cache =
      processRows fe now ({ row with LastRunTime := some c } :: rest) cache ∧
    strftime now ≠ "" := by
  refine ⟨processRows_subs_cached fe now rows cache s hs,
    process_tasks_cache_indep_commit fe ok1 ok2 now fs cache, ?_, strftime_ne_empty now⟩
  have h1 : overrideFromCache cache row = { row with LastRunTime := some c } := by
    simp [overrideFromCache, hc, hne]
  have h2 : overrideFromCache cache { row with LastRunTime := some c } =
      { row with LastRunTime := some c } := by
    simp [overrideFromCache, hc, hne]
  have h3 : rowStep fe now cache row =
      rowStep fe now cache { row with LastRunTime := some c } := by
    unfold rowStep
    rw [h1, h2]
  simp only [processRows, h3]

/-- Witness for C4: a triggered task `"X"` is cached at `now = 0` whatever
the replace oracle does, and a cached `"7"` for task `"Y"` overrides the
loaded value. -/
theorem runcache_updated_before_commit_witness :
    ((processRows (fun _ => true) 0
        [⟨some "true", some "X", some "/a.sh", some "10", none, none⟩]
        (fun k => if k = some "Y" then some "7" else none)).cache
          (Submission.mk 0 (some "X") "/a.sh").name = some (strftime 0)) ∧
    ((process_tasks (fun _ => true) (fun _ => true) 0 ⟨(REQUIRED_HEADERS, []), none⟩
        (fun k => if k = some "Y" then some "7" else none)).2.1 =
      (process_tasks (fun _ => true) (fun _ => false) 0 ⟨(REQUIRED_HEADERS, []), none⟩
        (fun k => if k = some "Y" then some "7" else none)).2.1) ∧
    processRows (fun _ => true) 0
        [⟨some "true", some "Y", some "/y.sh", some "3", none, some "42"⟩]
        (fun k => if k = some "Y" then some "7" else none) =
      processRows (fun _ => true) 0
        [⟨some "true", some "Y", some "/y.sh", some "3", none, some "7"⟩]
        (fun k => if k = some "Y" then some "7" else none) ∧
    strftime 0 ≠ "" :=
  runcache_updated_before_commit (fun _ => true) 0
    [⟨some "true", some "X", some "/a.sh", some "10", none, none⟩]
    (fun k => if k = some "Y" then some "7" else none) ⟨(REQUIRED_HEADERS, []), none⟩
    (fun _ => true) (fun _ => false) ⟨0, some "X", "/a.sh"⟩ (by decide)
    ⟨some "true", some "Y", some "/y.sh", some "3", none, some "42"⟩ [] "7" rfl
    (by decide)

/-- C5 (counterexample): a row that fails validation is *not* kept
field-for-field identical to the loaded row. Table: a valid row named `"X"`
triggers (caching `"X" ↦ strftime 0 = "0"`), then a second, invalid row
(empty `ExecutablePath`) with the same name is processed: the cache override
rewrites its loaded `LastRunTime` from `"42"` to `"0"` before validation
fails, and the modified row is what reaches the output table. -/
theorem failing_row_modified_counterexample :
    (processRows (fun _ => true) 0
        [⟨some "true", some "X", some "/a.sh", some "10", none, none⟩,
         ⟨some "true", some "X", some "", some "5", none, some "42"⟩]
        (fun _ => none)).rows.get? 1 =
      some ⟨some "true", some "X", some "", some "5", none, some "0"⟩ ∧
    (⟨some "true", some "X", some "", some "5", none, some "0"⟩ : Row) ≠
      ⟨some "true", some "X", some "", some "5", none, some "42"⟩ := by
  decide

/-- C5 (amended): a row that (after the cache override) fails row validation,
or is enabled but its resolved executable path does not exist, is excluded
from scheduling for the cycle — it is never submitted — and is carried into
the output table exactly as loaded except that its `LastRunTime` may have
been overridden by the run-cache entry for its name: all other fields are
identical to the loaded row. -/
theorem failing_row_kept (fe : String → Bool) (now : Int) (cache : RunCache)
    (row : Row) (rest : List Row) (r1 : Row)
    (hr : r1 = overrideFromCache cache row)
    (hfail : (validate_row_data r1).1 = false ∨
      ((validate_row_data r1).1 = true ∧ isEnabled r1.Enabled = true ∧
        (check_file_existence fe (r1.ExecutablePath.getD "")).1 = false)) :
    (processRows fe now (row :: rest) cache).rows.head? = some r1 ∧
    (∀ s ∈ (processRows fe now (row :: rest) cache).subs, s.idx ≠ 0) ∧
    r1.Enabled = row.Enabled ∧ r1.ProcessName = row.ProcessName ∧
    r1.ExecutablePath = row.ExecutablePath ∧ r1.Frequency = row.Frequency ∧
    r1.Arguments = row.Arguments := by
  have hstep : rowStep fe now cache row = .keep r1 := by
    subst hr
    unfold rowStep
    rcases hfail with h | ⟨h1, h2, h3⟩
    · simp [h]
    · simp [h1, h2, h3]
  rw [processRows_cons_keep fe now cache row rest r1 hstep]
  refine ⟨rfl, ?_, ?_⟩
  · intro s hs
    simp only at hs
    rcases List.mem_map.mp hs with ⟨s0, _, rfl⟩
    simp [bumpIdx]
  · subst hr
    unfold overrideFromCache
    cases cache row.ProcessName with
    | none => simp
    | some c =>
      dsimp only
      split_ifs <;> simp

/-- Witness for C5 (amended): a row with an empty executable path is kept
(no cache entry, so byte-identical here) and never submitted. -/
theorem failing_row_kept_witness :
    (processRows (fun _ => true) 5
        [⟨some "true", some "Z", some "", some "5", none, some "42"⟩] (fun _ => none)).rows.head? =
      some ⟨some "true", some "Z", some "", some "5", none, some "42"⟩ ∧
    (∀ s ∈ (processRows (fun _ => true) 5
        [⟨some "true", some "Z", some "", some "5", none, some "42"⟩] (fun _ => none)).subs,
      s.idx ≠ 0) ∧
    (⟨some "true", some "Z", some "", some "5", none, some "42"⟩ : Row).Enabled =
      (⟨some "true", some "Z", some "", some "5", none, some "42"⟩ : Row).Enabled ∧
    (⟨some "true", some "Z", some "", some "5", none, some "42"⟩ : Row).ProcessName =
      (⟨some "true", some "Z", some "", some "5", none, some "42"⟩ : Row).ProcessName ∧
    (⟨some "true", some "Z", some "", some "5", none, some "42"⟩ : Row).ExecutablePath =
      (⟨some "true", some "Z", some "", some "5", none, some "42"⟩ : Row).ExecutablePath ∧
    (⟨some "true", some "Z", some "", some "5", none, some "42"⟩ : Row).Frequency =
      (⟨some "true", some "Z", some "", some "5", none, some "42"⟩ : Row).Frequency ∧
    (⟨some "true", some "Z", some "", some "5", none, some "42"⟩ : Row).Arguments =
      (⟨some "true", some "Z", some "", some "5", none, some "42"⟩ : Row).Arguments :=
  failing_row_kept (fun _ => true) 5 (fun _ => none)
    ⟨some "true", some "Z", some "", some "5", none, some "42"⟩ []
    ⟨some "true", some "Z", some "", some "5", none, some "42"⟩ (by decide)
    (Or.inl (by decide))

/-- The row loop never deletes a run-cache key, and a truthy cached value
stays truthy (triggers overwrite it with the cycle timestamp, which is
nonempty). -/
theorem processRows_cache_truthy (fe : String → Bool) (now : Int) :
    ∀ (rows : List Row) (cache : RunCache) (k : Option String) (w : String),
      cache k = some w → w ≠ "" →
      ∃ u, (processRows fe now rows cache).cache k = some u ∧ u ≠ ""
  | [], cache, k, w => by
    intro h hne
    exact ⟨w, by simpa [processRows] using h, hne⟩
  | row :: rest, cache, k, w => by
    intro h hne
    cases hstep : rowStep fe now cache row with
    | keep r =>
      rw [processRows_cons_keep fe now cache row rest r hstep]
      exact processRows_cache_truthy fe now rest cache k w h hne
    | trigger r n p =>
      rw [processRows_cons_trigger fe now cache row rest r n p hstep]
      by_cases hkn : k = n
      · exact processRows_cache_truthy fe now rest (cacheInsert cache n (strftime now)) k
          (strftime now) (by simp [cacheInsert, hkn]) (strftime_ne_empty now)
      · exact processRows_cache_truthy fe now rest (cacheInsert cache n (strftime now)) k
          w (by simp [cacheInsert, hkn, h]) hne
    | abort =>
      rw [processRows_cons_abort fe now cache row rest hstep]
      exact ⟨w, h, hne⟩

/-- A full cycle keeps a truthy run-cache entry truthy, whatever the commit
oracle does. -/
theorem process_tasks_cache_truthy (fe : String → Bool) (ok : Nat → Bool) (now : Int)
    (fs : Fs) (cache : RunCache) (k : Option String) (w : String)
    (h : cache k = some w) (hne : w ≠ "") :
    ∃ u, (process_tasks fe ok now fs cache).2.1 k = some u ∧ u ≠ "" := by
  unfold process_tasks
  dsimp only
  split_ifs <;>
    first
      | exact ⟨w, h, hne⟩
      | exact processRows_cache_truthy fe now fs.dest.2 cache k w h hne

/-- C10: a run-cache entry, once set for a task name, survives every number
of further cycles — including cycles whose commit succeeds — with a truthy
value, and as long as a truthy entry is present, a loaded row with that name
has its freshly loaded `lastRunTime` replaced by the cached value: whatever
`lastRunTime` an on-disk edit supplies, the row entering the decision is the
same, until the process (and with it the in-memory cache) restarts. -/
theorem runcache_never_invalidated (ps : List CycleIn) (fs : Fs) (cache : RunCache)
    (k : Option String) (v : String)
    (hv : cache k = some v) (hne : v ≠ "")
    (row : Row) (hk : row.ProcessName = k) (x : Option String) :
    (∃ w, (runCycles ps (fs, cache)).2 k = some w ∧ w ≠ "") ∧
    overrideFromCache cache { row with LastRunTime := x } =
      { row with LastRunTime := some v } := by
  constructor
  · have main : ∀ (ps : List CycleIn) (fs : Fs) (cache : RunCache) (w : String),
        cache k = some w → w ≠ "" →
        ∃ u, (runCycles ps (fs, cache)).2 k = some u ∧ u ≠ "" := by
      intro ps
      induction ps with
      | nil => intro fs cache w h hne2; exact ⟨w, h, hne2⟩
      | cons p rest ih =>
        intro fs cache w h hne2
        obtain ⟨u, hu, hu2⟩ := process_tasks_cache_truthy p.1 p.2.1 p.2.2 fs cache k w h hne2
        exact ih _ _ u hu hu2
    exact main ps fs cache v hv hne
  · simp [overrideFromCache, hk, hv, hne]

/-- Witness for C10: task `"X"` stays cached (at value `"3"`) through a cycle
with a successful commit, and an on-disk edit of its `lastRunTime` to `"99"`
is overridden. -/
theorem runcache_never_invalidated_witness :
    (∃ w, (runCycles [(fun _ => true, fun _ => true, 0)]
        (⟨(REQUIRED_HEADERS, [⟨some "true", some "X", some "/a.sh", some "10", none, none⟩]), none⟩,
          fun k => if k = some "X" then some "3" else none)).2 (some "X") = some w ∧ w ≠ "") ∧
    overrideFromCache (fun k => if k = some "X" then some "3" else none)
        { (⟨some "true", some "X", some "/a.sh", some "10", none, none⟩ : Row) with
            LastRunTime := some "99" } =
      { (⟨some "true", some "X", some "/a.sh", some "10", none, none⟩ : Row) with
          LastRunTime := some "3" } :=
  runcache_never_invalidated [(fun _ => true, fun _ => true, 0)]
    ⟨(REQUIRED_HEADERS, [⟨some "true", some "X", some "/a.sh", some "10", none, none⟩]), none⟩
    (fun k => if k = some "X" then some "3" else none) (some "X") "3" rfl (by decide)
    ⟨some "true", some "X", some "/a.sh", some "10", none, none⟩ rfl (some "99")
